import Mathlib

/-!
Verification of the core logic of `flaskmongorm` (`src/flaskmongorm/__init__.py`):
the sort/index specification mini-parser (`get_sort` with the direction tables
`INDEX_NAMES` / `SORT_NAMES`), the uniqueness-filter builder (`get_uniq_spec`),
the class-hierarchy default-value resolver (`_get_default`, `get_all_defaults`
via `get_class_attr`, `__getitem__`, `__getattr__`), and the error-capturing
write wrapper (`capture_errors` and the write methods routed through it).

Python string primitives (`str.strip`, `str.split`, `str.lower`,
`str.replace("  ", " ")`, `" " in s`) are embedded as structurally recursive
functions over `List Char` so that every definition evaluates inside the
kernel.  Python `dict`s are embedded as ordered association lists
(`List (String × V)`): lookup returns the first binding, assignment to an
existing key updates it in place, assignment to a fresh key appends.
-/

namespace FlaskMongoRM

/-- Embeds Python `s.split(sep)` for a one-character separator: splitting the
empty string yields `[""]`, and adjacent separators yield empty pieces. -/
def splitOnChar (sep : Char) : List Char → List (List Char)
  | [] => [[]]
  | c :: rest =>
    match splitOnChar sep rest with
    | [] => [[c]]
    | cur :: done => if c = sep then [] :: cur :: done else (c :: cur) :: done

/-- Embeds Python `s.split(sep)` on `String`s. -/
def pySplit (sep : Char) (s : String) : List String :=
  (splitOnChar sep s.data).map (fun l => ⟨l⟩)

/-- Embeds Python `s.strip()`: drop leading and trailing whitespace. -/
def trimChars (l : List Char) : List Char :=
  ((l.dropWhile Char.isWhitespace).reverse.dropWhile Char.isWhitespace).reverse

/-- Embeds Python `s.strip()` on `String`s. -/
def pyStrip (s : String) : String := ⟨trimChars s.data⟩

/-- Embeds Python `s.lower()` (the tokens involved are ASCII). -/
def pyLower (s : String) : String := ⟨s.data.map Char.toLower⟩

/-- Embeds Python `s.replace("  ", " ")`: one left-to-right pass replacing each
non-overlapping occurrence of two consecutive spaces by a single space. -/
def collapseTwoSpace : List Char → List Char
  | [] => []
  | [c] => [c]
  | c1 :: c2 :: rest =>
    if c1 = ' ' ∧ c2 = ' ' then ' ' :: collapseTwoSpace rest
    else c1 :: collapseTwoSpace (c2 :: rest)

/-- Embeds Python `s.replace("  ", " ")` on `String`s. -/
def pyReplaceTwoSpace (s : String) : String := ⟨collapseTwoSpace s.data⟩

/-- Embeds Python `" " in s`. -/
def pyContainsSpace (s : String) : Bool := s.data.contains ' '

/-- The canonical direction / index-type codes imported from the driver
(`ASCENDING`, `DESCENDING`, `GEO2D`, `GEOSPHERE`, `HASHED`, `TEXT`). -/
inductive Direction where
  | ascending
  | descending
  | geo2d
  | geosphere
  | hashed
  | text
deriving DecidableEq, Repr

/-- Embeds the module-level `INDEX_NAMES` table. -/
def INDEX_NAMES : List (String × Direction) :=
  [("asc", Direction.ascending), ("ascending", Direction.ascending),
   ("desc", Direction.descending), ("descending", Direction.descending),
   ("geo2d", Direction.geo2d), ("geosphere", Direction.geosphere),
   ("hashed", Direction.hashed), ("text", Direction.text)]

/-- Embeds the module-level `SORT_NAMES` table. -/
def SORT_NAMES : List (String × Direction) :=
  [("asc", Direction.ascending), ("ascending", Direction.ascending),
   ("desc", Direction.descending), ("descending", Direction.descending)]

/-- Embeds the lookup `names[_sort.lower()]` in `get_sort`, where `names` is
`INDEX_NAMES` when `for_index` else `SORT_NAMES`; `none` is the `KeyError`
raised on an unknown token. -/
def resolveDirection (token : String) (forIndex : Bool) : Option Direction :=
  List.lookup (pyLower token) (if forIndex then INDEX_NAMES else SORT_NAMES)

/-- Embeds the per-item body of `get_sort`: the argument is the item already
stripped and known non-empty.  If it contains a space, `get_sort` runs
`item.replace("  ", " ").split(" ")[:2]`, unpacks the first two tokens as
`field, _sort` and appends `(field, names[_sort.lower()])`; otherwise it
appends `(item, names["asc"])`.  `none` is a raised `KeyError` (or the
`ValueError` of unpacking fewer than two tokens, unreachable here). -/
def parseItem (forIndex : Bool) (item : String) : Option (String × Direction) :=
  if pyContainsSpace item then
    match (pySplit ' ' (pyReplaceTwoSpace item)).take 2 with
    | [field, tok] => (resolveDirection tok forIndex).map (fun d => (field, d))
    | _ => none
  else
    some (item, Direction.ascending)

/-- Embeds the inner loop of `get_sort` over `items.split(",")`: each item is
stripped, empty items are skipped, the rest go through `parseItem` in order. -/
def parseItems (forIndex : Bool) : List String → Option (List (String × Direction))
  | [] => some []
  | it :: rest =>
    let t := pyStrip it
    if t.data.isEmpty then parseItems forIndex rest
    else do
      let p ← parseItem forIndex t
      let ps ← parseItems forIndex rest
      pure (p :: ps)

/-- Embeds the outer loop of `get_sort` over `sort.strip().split(";")`: each
group is stripped, empty groups are skipped, a group whose item list `lst`
comes out empty is dropped, the rest are collected in order. -/
def parseGroups (forIndex : Bool) : List String → Option (List (List (String × Direction)))
  | [] => some []
  | g :: rest =>
    let gt := pyStrip g
    if gt.data.isEmpty then parseGroups forIndex rest
    else do
      let lst ← parseItems forIndex (pySplit ',' gt)
      let restSorts ← parseGroups forIndex rest
      pure (if lst.isEmpty then restSorts else lst :: restSorts)

/-- Result shape of `get_sort` on a string: `sorts[0] if len(sorts) == 1 else
sorts` returns either one bare key/direction list or a list of them. -/
inductive SortResult where
  | single (s : List (String × Direction))
  | multiple (ss : List (List (String × Direction)))
deriving DecidableEq, Repr

/-- Embeds `get_sort(sort, for_index)` on a (non-`None`, non-list) string
argument; the `None` and list pass-through branches of the source return the
input unchanged and are not modelled here.  `none` is a raised `KeyError`. -/
def get_sort (forIndex : Bool) (s : String) : Option SortResult := do
  let sorts ← parseGroups forIndex (pySplit ';' (pyStrip s))
  pure (match sorts with
    | [l] => SortResult.single l
    | _ => SortResult.multiple sorts)

/-- Embeds Python dict assignment `d[k] = v` on an ordered association list:
an existing key keeps its position and gets the new value, a fresh key is
appended. -/
def dictInsert {V : Type} : List (String × V) → String → V → List (String × V)
  | [], k, v => [(k, v)]
  | (k1, v1) :: rest, k, v =>
    if k1 = k then (k1, v) :: rest else (k1, v1) :: dictInsert rest k v

/-- Embeds `[f.strip() for f in field.split(",") if f.strip()]` in
`get_uniq_spec`. -/
def parseFields (field : String) : List String :=
  ((pySplit ',' field).map pyStrip).filter (fun f => !f.data.isEmpty)

/-- Embeds the per-group body of `get_uniq_spec`: start from the empty dict
`spec` and, for each listed field `k` present in `doc`, set
`spec[k] = doc[k]`. -/
def groupSpec {V : Type} (doc : List (String × V)) (field : String) :
    List (String × V) :=
  (parseFields field).foldl
    (fun spec k =>
      match List.lookup k doc with
      | some v => dictInsert spec k v
      | none => spec) []

/-- Embeds the outer loop of `get_uniq_spec`: collect the non-empty group
specs in order. -/
def buildSpecs {V : Type} (doc : List (String × V)) :
    List String → List (List (String × V))
  | [] => []
  | f :: rest =>
    let spec := groupSpec doc f
    if spec.isEmpty then buildSpecs doc rest else spec :: buildSpecs doc rest

/-- Embeds `get_uniq_spec(fields, doc)`: `some specs` stands for the filter
`{"$or": specs}` and `none` for Python `None`. -/
def get_uniq_spec {V : Type} (fields : List String) (doc : List (String × V)) :
    Option (List (List (String × V))) :=
  let specs := buildSpecs doc fields
  if specs.isEmpty then none else some specs

/-- Embeds `_get_default(self, key)`: walk `self.__class__.__mro__` (here the
list of every ancestor's own `__default_values__` dict, most-derived first; a
class without its own `__default_values__` entry contributes the empty dict)
and return the first ancestor's own value for `key`; `none` is the `None`
returned when no ancestor declares `key`. -/
def getDefault {V : Type} (mro : List (List (String × V))) (key : String) :
    Option V :=
  match mro with
  | [] => none
  | m :: rest =>
    match List.lookup key m with
    | some v => some v
    | none => getDefault rest key

/-- Embeds Python `data.setdefault(k, v)`: keep an existing binding, append a
fresh one. -/
def setdefaultD {V : Type} (data : List (String × V)) (k : String) (v : V) :
    List (String × V) :=
  if (List.lookup k data).isSome then data else data ++ [(k, v)]

/-- Embeds `get_class_attr(name, attr_type={})` for a dict-valued attribute:
fold `data.setdefault(k, v)` over every ancestor's own dict in `__mro__`
order. -/
def get_class_attr_dict {V : Type} (mro : List (List (String × V))) :
    List (String × V) :=
  mro.foldl (fun data m => m.foldl (fun d kv => setdefaultD d kv.1 kv.2) data) []

/-- Embeds `get_all_defaults()` =
`get_class_attr("__default_values__", attr_type={})`. -/
def get_all_defaults {V : Type} (mro : List (List (String × V))) :
    List (String × V) :=
  get_class_attr_dict mro

/-- An instance: its own `__dict__` plus the `__default_values__` dicts of its
class's `__mro__`. -/
structure Inst (V : Type) where
  dict : List (String × V)
  mro : List (List (String × V))

/-- Embeds `__getitem__`: `self.__dict__.get(key, self._get_default(key))`. -/
def getItem {V : Type} (inst : Inst V) (key : String) : Option V :=
  match List.lookup key inst.dict with
  | some v => some v
  | none => getDefault inst.mro key

/-- Embeds `__getattr__`, which Python invokes only when normal attribute
lookup fails: `return self._get_default(key)`. -/
def getAttr {V : Type} (inst : Inst V) (key : String) : Option V :=
  getDefault inst.mro key

/-- State-passing form of `_get_default`: the body only reads, so the
outgoing instance is the incoming one. -/
def getDefaultS {V : Type} (inst : Inst V) (key : String) : Option V × Inst V :=
  (getDefault inst.mro key, inst)

/-- State-passing form of `__getitem__`. -/
def getItemS {V : Type} (inst : Inst V) (key : String) : Option V × Inst V :=
  (getItem inst key, inst)

/-- State-passing form of `__getattr__`. -/
def getAttrS {V : Type} (inst : Inst V) (key : String) : Option V × Inst V :=
  (getAttr inst key, inst)

/-- Embeds `capture_errors(action, ...)`: `run` is the outcome of the
underlying `cls._run(action, ...)` (`Except.error` is a raised exception),
`flag` is `kwargs.pop("capture_errors", True)`, and `toMsg` is `f"{ex}"`.
With the flag set, an exception is caught and its string representation is
returned (`Sum.inr`); otherwise the call is made unprotected. -/
def capture_errors {E A : Type} (toMsg : E → String) (flag : Bool)
    (run : Except E A) : Except E (A ⊕ String) :=
  if flag then
    match run with
    | Except.ok v => Except.ok (Sum.inl v)
    | Except.error ex => Except.ok (Sum.inr (toMsg ex))
  else
    Except.map Sum.inl run

/-- Embeds `insert_one`, which routes its action through `capture_errors`. -/
def insert_one {E A : Type} (toMsg : E → String) (flag : Bool)
    (run : Except E A) : Except E (A ⊕ String) :=
  capture_errors toMsg flag run

/-- Embeds `insert_many`. -/
def insert_many {E A : Type} (toMsg : E → String) (flag : Bool)
    (run : Except E A) : Except E (A ⊕ String) :=
  capture_errors toMsg flag run

/-- Embeds `update_one`. -/
def update_one {E A : Type} (toMsg : E → String) (flag : Bool)
    (run : Except E A) : Except E (A ⊕ String) :=
  capture_errors toMsg flag run

/-- Embeds `update_many`. -/
def update_many {E A : Type} (toMsg : E → String) (flag : Bool)
    (run : Except E A) : Except E (A ⊕ String) :=
  capture_errors toMsg flag run

/-- Embeds `replace_one`. -/
def replace_one {E A : Type} (toMsg : E → String) (flag : Bool)
    (run : Except E A) : Except E (A ⊕ String) :=
  capture_errors toMsg flag run

/-- Embeds `delete_one`. -/
def delete_one {E A : Type} (toMsg : E → String) (flag : Bool)
    (run : Except E A) : Except E (A ⊕ String) :=
  capture_errors toMsg flag run

/-- Embeds `delete_many`. -/
def delete_many {E A : Type} (toMsg : E → String) (flag : Bool)
    (run : Except E A) : Except E (A ⊕ String) :=
  capture_errors toMsg flag run

/-- Embeds `bulk_write`. -/
def bulk_write {E A : Type} (toMsg : E → String) (flag : Bool)
    (run : Except E A) : Except E (A ⊕ String) :=
  capture_errors toMsg flag run

end FlaskMongoRM

namespace FlaskMongoRM

theorem lookup_isSome_iff_mem {β : Type} (k : String) (l : List (String × β)) :
    (List.lookup k l).isSome = true ↔ k ∈ l.map Prod.fst := by
  induction l with
  | nil => simp [List.lookup]
  | cons p t ih =>
    obtain ⟨a, b⟩ := p
    by_cases h : k = a
    · subst h
      simp [List.lookup]
    · have hb : (k == a) = false := by simp [h]
      simp [List.lookup, hb, h, ih]


/-- C2: direction tokens are lower-cased before lookup; without `for_index` the
valid set is exactly {asc, ascending, desc, descending}, with `for_index` it
additionally contains {geo2d, geosphere, hashed, text}; a token outside the
applicable set fails the lookup (a `KeyError`), never a silent default; in
particular "hashed" fails in sort mode and succeeds in index mode, and "DESC"
and "desc" resolve to the same canonical direction. -/
theorem direction_token_resolution (token : String) :
    ((resolveDirection token false).isSome = true ↔
      pyLower token ∈ ["asc", "ascending", "desc", "descending"]) ∧
    ((resolveDirection token true).isSome = true ↔
      pyLower token ∈ ["asc", "ascending", "desc", "descending",
                       "geo2d", "geosphere", "hashed", "text"]) ∧
    resolveDirection "hashed" false = none ∧
    resolveDirection "hashed" true = some Direction.hashed ∧
    resolveDirection "DESC" false = some Direction.descending ∧
    resolveDirection "desc" false = some Direction.descending := by
  refine ⟨?_, ?_, by decide, by decide, by decide, by decide⟩
  · have h := lookup_isSome_iff_mem (pyLower token) SORT_NAMES
    rw [show SORT_NAMES.map Prod.fst = ["asc", "ascending", "desc", "descending"] from rfl] at h
    exact h
  · have h := lookup_isSome_iff_mem (pyLower token) INDEX_NAMES
    rw [show INDEX_NAMES.map Prod.fst = ["asc", "ascending", "desc", "descending",
          "geo2d", "geosphere", "hashed", "text"] from rfl] at h
    exact h


/-- C5: `get_sort` splits the input on `;` into groups and each group on `,`
into items; each item is trimmed; an item with no internal whitespace becomes
the field with the implicit ascending direction; groups and items that are
empty after trimming are skipped silently; within a resulting key list the
(field, direction) pairs appear in the order given — in particular
`get_sort false "a desc, b"` yields the single list
`[("a", descending), ("b", ascending)]`. -/
theorem sort_spec_grammar (forIndex : Bool) :
    (∀ item : String, pyContainsSpace item = false →
      parseItem forIndex item = some (item, Direction.ascending)) ∧
    (∀ it rest, (pyStrip it).data.isEmpty = true →
      parseItems forIndex (it :: rest) = parseItems forIndex rest) ∧
    (∀ g rest, (pyStrip g).data.isEmpty = true →
      parseGroups forIndex (g :: rest) = parseGroups forIndex rest) ∧
    get_sort false "a desc, b" =
      some (SortResult.single [("a", Direction.descending), ("b", Direction.ascending)]) ∧
    get_sort false "a, , b" =
      some (SortResult.single [("a", Direction.ascending), ("b", Direction.ascending)]) ∧
    get_sort false " ;; a ; " = some (SortResult.single [("a", Direction.ascending)]) := by
  refine ⟨?_, ?_, ?_, by decide, by decide, by decide⟩
  · intro item h
    simp [parseItem, h]
  · intro it rest h
    simp [parseItems, h]
  · intro g rest h
    simp [parseGroups, h]

/-- Witness for C5 at concrete inputs. -/
theorem sort_spec_grammar_witness :
    parseItem false "b" = some ("b", Direction.ascending) ∧
    parseItems false [" ", "b"] = parseItems false ["b"] ∧
    parseGroups false ["", "a"] = parseGroups false ["a"] :=
  ⟨(sort_spec_grammar false).1 "b" (by decide),
   (sort_spec_grammar false).2.1 " " ["b"] (by decide),
   (sort_spec_grammar false).2.2.1 "" ["a"] (by decide)⟩

/-- C4: when parsing yields exactly one non-empty group, `get_sort` returns
that single key list bare rather than as a one-element list; with two or more
non-empty groups it returns the list of key lists in group order — e.g.
`get_sort false "a desc; b asc"` is a list of two key lists while
`get_sort false "a desc, b"` is a single bare key list. -/
theorem sort_result_shape :
    get_sort false "a desc; b asc" =
      some (SortResult.multiple [[("a", Direction.descending)], [("b", Direction.ascending)]]) ∧
    get_sort false "a desc, b" =
      some (SortResult.single [("a", Direction.descending), ("b", Direction.ascending)]) ∧
    ∀ (forIndex : Bool) (s : String) (sorts : List (List (String × Direction))),
      parseGroups forIndex (pySplit ';' (pyStrip s)) = some sorts →
      (∀ l, sorts = [l] → get_sort forIndex s = some (SortResult.single l)) ∧
      (2 ≤ sorts.length → get_sort forIndex s = some (SortResult.multiple sorts)) := by
  refine ⟨by decide, by decide, ?_⟩
  intro forIndex s sorts h
  constructor
  · intro l hl
    subst hl
    simp [get_sort, h]
  · intro hlen
    match sorts, hlen with
    | a :: b :: t, _ => simp [get_sort, h]

/-- Witness for C4 at concrete inputs. -/
theorem sort_result_shape_witness :
    get_sort false "a; b" =
      some (SortResult.multiple [[("a", Direction.ascending)], [("b", Direction.ascending)]]) ∧
    get_sort false "a, b" =
      some (SortResult.single [("a", Direction.ascending), ("b", Direction.ascending)]) :=
  ⟨(sort_result_shape.2.2 false "a; b"
      [[("a", Direction.ascending)], [("b", Direction.ascending)]] (by decide)).2 (by decide),
   (sort_result_shape.2.2 false "a, b"
      [[("a", Direction.ascending), ("b", Direction.ascending)]] (by decide)).1
      [("a", Direction.ascending), ("b", Direction.ascending)] rfl⟩

/-- C3 counterexample: on the item `"a   desc"` (three interior spaces) the
single replace pass leaves a double space, the split produces an empty middle
token, and `get_sort` fails with a `KeyError` on the empty direction token
instead of resolving leniently to `("a", descending)`. -/
theorem interior_space_counterexample :
    pyReplaceTwoSpace "a   desc" = "a  desc" ∧
    pySplit ' ' (pyReplaceTwoSpace "a   desc") = ["a", "", "desc"] ∧
    get_sort false "a   desc" = none ∧
    get_sort false "a   desc" ≠ some (SortResult.single [("a", Direction.descending)]) := by
  decide

/-- C3 amended: an item with internal whitespace goes through one
left-to-right pass replacing each non-overlapping pair of adjacent spaces
with a single space (runs of two spaces collapse; longer runs are not fully
collapsed), is then split on single spaces, and only the first two tokens are
consulted as field and direction, trailing extra tokens being ignored without
error; a run of three or more spaces leaves an empty direction token whose
lookup fails. -/
theorem interior_space_handling :
    get_sort false "a  desc" = some (SortResult.single [("a", Direction.descending)]) ∧
    get_sort false "a desc extra" = some (SortResult.single [("a", Direction.descending)]) ∧
    get_sort false "a desc extra more" =
      some (SortResult.single [("a", Direction.descending)]) ∧
    get_sort true "loc geo2d junk" = some (SortResult.single [("loc", Direction.geo2d)]) ∧
    get_sort false "a   desc" = none ∧
    get_sort false "a    desc" = none := by
  decide


theorem dictInsert_ne_nil {V : Type} (l : List (String × V)) (k : String) (v : V) :
    dictInsert l k v ≠ [] := by
  cases l with
  | nil => simp [dictInsert]
  | cons p rest =>
    obtain ⟨k1, v1⟩ := p
    simp only [dictInsert]
    split <;> simp

theorem foldl_spec_nil_iff {V : Type} (doc : List (String × V)) (keys : List String)
    (acc : List (String × V)) :
    (keys.foldl
      (fun spec k =>
        match List.lookup k doc with
        | some v => dictInsert spec k v
        | none => spec) acc = []) ↔
    (acc = [] ∧ ∀ k ∈ keys, List.lookup k doc = none) := by
  induction keys generalizing acc with
  | nil => simp
  | cons k ks ih =>
    simp only [List.foldl_cons]
    cases h : List.lookup k doc with
    | none =>
      rw [ih, List.forall_mem_cons, h]
      simp
    | some v =>
      rw [ih]
      constructor
      · rintro ⟨h1, -⟩
        exact absurd h1 (dictInsert_ne_nil acc k v)
      · rintro ⟨-, hall⟩
        have := hall k (by simp)
        rw [this] at h
        cases h

theorem groupSpec_eq_nil_iff {V : Type} (doc : List (String × V)) (g : String) :
    groupSpec doc g = [] ↔ ∀ k ∈ parseFields g, List.lookup k doc = none := by
  have h := foldl_spec_nil_iff doc (parseFields g) []
  simpa [groupSpec] using h

theorem buildSpecs_eq_filter {V : Type} (doc : List (String × V)) (fields : List String) :
    buildSpecs doc fields = (fields.map (groupSpec doc)).filter (fun s => !s.isEmpty) := by
  induction fields with
  | nil => rfl
  | cons f rest ih =>
    cases h : (groupSpec doc f).isEmpty <;>
      simp [buildSpecs, h, ih, List.filter_cons]

theorem mem_buildSpecs {V : Type} (doc : List (String × V)) (fields : List String)
    (g : String) (hg : g ∈ fields) (hne : groupSpec doc g ≠ []) :
    groupSpec doc g ∈ buildSpecs doc fields := by
  rw [buildSpecs_eq_filter]
  refine List.mem_filter.2 ⟨List.mem_map_of_mem _ hg, ?_⟩
  simpa using hne


/-- C1 counterexample: on
`get_uniq_spec(["email", "username,tenant_id"], {"email": "x@y.com", "tenant_id": "t1"})`
the second group is NOT dropped even though `username` is absent: its
sub-filter keeps the present field `tenant_id`, so the result contains two
sub-filters, not only `{"email": "x@y.com"}`. -/
theorem partial_group_counterexample :
    get_uniq_spec ["email", "username,tenant_id"]
        [("email", "x@y.com"), ("tenant_id", "t1")] =
      some [[("email", "x@y.com")], [("tenant_id", "t1")]] ∧
    get_uniq_spec ["email", "username,tenant_id"]
        [("email", "x@y.com"), ("tenant_id", "t1")] ≠
      some [[("email", "x@y.com")]] := by
  decide

/-- C1 amended: a field group contributes a sub-filter to the uniqueness
filter built by `get_uniq_spec` if and only if AT LEAST ONE of its listed
fields is present as a key in the candidate document (the sub-filter keeps
exactly the present fields); only groups with zero present fields are
dropped.  In particular the example with `username` absent keeps both
sub-filters, `{"email": "x@y.com"}` and `{"tenant_id": "t1"}`. -/
theorem group_contribution {V : Type} (fields : List String)
    (doc : List (String × V)) (g : String) (hg : g ∈ fields) :
    (groupSpec doc g ≠ [] ↔
      ∃ k ∈ parseFields g, (List.lookup k doc).isSome = true) ∧
    (groupSpec doc g ≠ [] →
      ∃ specs, get_uniq_spec fields doc = some specs ∧ groupSpec doc g ∈ specs) ∧
    get_uniq_spec ["email", "username,tenant_id"]
        [("email", "x@y.com"), ("tenant_id", "t1")] =
      some [[("email", "x@y.com")], [("tenant_id", "t1")]] := by
  refine ⟨?_, ?_, by decide⟩
  · rw [ne_eq, groupSpec_eq_nil_iff]
    push_neg
    constructor
    · rintro ⟨k, hk, hne⟩
      exact ⟨k, hk, by simpa [Option.isSome_iff_ne_none] using hne⟩
    · rintro ⟨k, hk, hsome⟩
      exact ⟨k, hk, by simpa [Option.isSome_iff_ne_none] using hsome⟩
  · intro hne
    have hmem := mem_buildSpecs doc fields g hg hne
    have hbs : buildSpecs doc fields ≠ [] := List.ne_nil_of_mem hmem
    refine ⟨buildSpecs doc fields, ?_, hmem⟩
    have : (buildSpecs doc fields).isEmpty = false := by
      cases hb : buildSpecs doc fields with
      | nil => exact absurd hb hbs
      | cons a t => simp [hb]
    simp [get_uniq_spec, this]

/-- Witness for C1 at a concrete input: the group "username,tenant_id" with
only `tenant_id` present still contributes its partial sub-filter. -/
theorem group_contribution_witness :
    (groupSpec [("tenant_id", "t1")] "username,tenant_id" ≠ [] ↔
      ∃ k ∈ parseFields "username,tenant_id",
        (List.lookup k [("tenant_id", "t1")]).isSome = true) ∧
    (∃ specs, get_uniq_spec ["username,tenant_id"] [("tenant_id", "t1")] = some specs ∧
      groupSpec [("tenant_id", "t1")] "username,tenant_id" ∈ specs) :=
  ⟨(group_contribution ["username,tenant_id"] [("tenant_id", "t1")]
      "username,tenant_id" (by decide)).1,
   (group_contribution ["username,tenant_id"] [("tenant_id", "t1")]
      "username,tenant_id" (by decide)).2.1 (by decide)⟩

/-- C8: `get_uniq_spec` returns `None` when zero non-empty sub-filters remain
(in particular on an empty field-group list, and when no listed field of any
group is present in the candidate), and otherwise returns the `$or`
disjunction over exactly the remaining non-empty sub-filters. -/
theorem uniq_spec_null_or_disjunction {V : Type} (fields : List String)
    (doc : List (String × V)) :
    get_uniq_spec ([] : List String) doc = none ∧
    get_uniq_spec ["missing_field"] [("other", (1 : Nat))] = none ∧
    ((∀ g ∈ fields, ∀ k ∈ parseFields g, List.lookup k doc = none) →
      get_uniq_spec fields doc = none) ∧
    (buildSpecs doc fields ≠ [] →
      get_uniq_spec fields doc =
        some ((fields.map (groupSpec doc)).filter (fun s => !s.isEmpty))) ∧
    (∀ specs, get_uniq_spec fields doc = some specs →
      specs ≠ [] ∧ ∀ sub ∈ specs, sub ≠ []) := by
  refine ⟨rfl, by decide, ?_, ?_, ?_⟩
  · intro hall
    have hbs : buildSpecs doc fields = [] := by
      rw [buildSpecs_eq_filter]
      rw [List.filter_eq_nil_iff]
      intro spec hspec
      obtain ⟨g, hg, rfl⟩ := List.mem_map.1 hspec
      have : groupSpec doc g = [] := (groupSpec_eq_nil_iff doc g).2 (hall g hg)
      simp [this]
    simp [get_uniq_spec, hbs]
  · intro hbs
    have hemp : (buildSpecs doc fields).isEmpty = false := by
      cases hb : buildSpecs doc fields with
      | nil => exact absurd hb hbs
      | cons a t => simp [hb]
    rw [show get_uniq_spec fields doc =
        (if (buildSpecs doc fields).isEmpty then none else some (buildSpecs doc fields))
        from rfl, hemp]
    simp [buildSpecs_eq_filter]
  · intro specs hspecs
    have hemp : (buildSpecs doc fields).isEmpty = false ∧ specs = buildSpecs doc fields := by
      by_cases hb : (buildSpecs doc fields).isEmpty
      · rw [show get_uniq_spec fields doc =
            (if (buildSpecs doc fields).isEmpty then none else some (buildSpecs doc fields))
            from rfl, if_pos hb] at hspecs
        cases hspecs
      · rw [show get_uniq_spec fields doc =
            (if (buildSpecs doc fields).isEmpty then none else some (buildSpecs doc fields))
            from rfl, if_neg hb] at hspecs
        exact ⟨by simpa using hb, (Option.some_inj.1 hspecs).symm⟩
    obtain ⟨hemp, rfl⟩ := hemp
    constructor
    · intro hnil
      rw [hnil] at hemp
      simp at hemp
    · intro sub hsub
      rw [buildSpecs_eq_filter] at hsub
      have := (List.mem_filter.1 hsub).2
      simpa using this

/-- Witness for C8 at concrete inputs. -/
theorem uniq_spec_null_or_disjunction_witness :
    get_uniq_spec ["a"] [("b", (1 : Nat))] = none ∧
    get_uniq_spec ["a", "c"] [("a", (1 : Nat))] = some [[("a", (1 : Nat))]] ∧
    ([[("a", (1 : Nat))]] ≠ ([] : List (List (String × Nat))) ∧
      ∀ sub ∈ [[("a", (1 : Nat))]], sub ≠ ([] : List (String × Nat))) :=
  ⟨(uniq_spec_null_or_disjunction ["a"] [("b", (1 : Nat))]).2.2.1 (by decide),
   ((uniq_spec_null_or_disjunction ["a", "c"] [("a", (1 : Nat))]).2.2.2.1
      (by decide)).trans (by decide),
   (uniq_spec_null_or_disjunction ["a", "c"] [("a", (1 : Nat))]).2.2.2.2
      [[("a", (1 : Nat))]] (by decide)⟩


theorem getDefault_eq_head {V : Type} (mro : List (List (String × V))) (key : String) :
    getDefault mro key = (mro.filterMap (fun m => List.lookup key m)).head? := by
  induction mro with
  | nil => rfl
  | cons m rest ih =>
    cases h : List.lookup key m with
    | none => simp [getDefault, h, List.filterMap_cons, ih]
    | some v => simp [getDefault, h, List.filterMap_cons]

/-- C6: default resolution scans the ancestry most-derived first and returns
the first value declared in an ancestor's own default map (maps are not
merged; the key's first owner wins, so a subtype's declaration overrides a
parent's); when no ancestor declares the key the result is `None` rather
than an error, and attribute/item access on a never-set field returns the
resolved default. -/
theorem default_resolution {V : Type} (mro : List (List (String × V))) (key : String) :
    getDefault mro key = (mro.filterMap (fun m => List.lookup key m)).head? ∧
    getDefault ([] : List (List (String × V))) key = none ∧
    (∀ (m : List (String × V)) rest (v : V), List.lookup key m = some v →
      getDefault (m :: rest) key = some v) ∧
    (∀ (m : List (String × V)) rest, List.lookup key m = none →
      getDefault (m :: rest) key = getDefault rest key) ∧
    (∀ inst : Inst V, List.lookup key inst.dict = none →
      getItem inst key = getDefault inst.mro key ∧
      getAttr inst key = getDefault inst.mro key) ∧
    getDefault [[("status", (1 : Nat))], [("status", 2)]] "status" = some 1 ∧
    getDefault [([] : List (String × Nat)), [("status", 2)]] "status" = some 2 ∧
    getDefault [[("status", (1 : Nat))]] "other" = none := by
  refine ⟨getDefault_eq_head mro key, rfl, ?_, ?_, ?_, by decide, by decide, by decide⟩
  · intro m rest v h
    simp [getDefault, h]
  · intro m rest h
    simp [getDefault, h]
  · intro inst h
    exact ⟨by simp [getItem, h], rfl⟩

/-- Witness for C6 at concrete inputs. -/
theorem default_resolution_witness :
    getDefault [[("a", (1 : Nat))], [("b", 2)]] "a" = some 1 ∧
    getDefault [[("a", (1 : Nat))], [("b", 2)]] "b" = getDefault [[("b", (2 : Nat))]] "b" ∧
    (getItem (Inst.mk [("x", (5 : Nat))] [[("y", 7)]]) "y" =
        getDefault [[("y", (7 : Nat))]] "y" ∧
      getAttr (Inst.mk [("x", (5 : Nat))] [[("y", 7)]]) "y" =
        getDefault [[("y", (7 : Nat))]] "y") :=
  ⟨(default_resolution [[("a", (1 : Nat))], [("b", 2)]] "a").2.2.1
      [("a", (1 : Nat))] [[("b", 2)]] 1 (by decide),
   (default_resolution [[("a", (1 : Nat))], [("b", 2)]] "b").2.2.2.1
      [("a", (1 : Nat))] [[("b", 2)]] (by decide),
   (default_resolution [[("y", (7 : Nat))]] "y").2.2.2.2.1
      (Inst.mk [("x", (5 : Nat))] [[("y", 7)]]) (by decide)⟩

theorem lookup_append_assoc {V : Type} (k : String) (l1 l2 : List (String × V)) :
    List.lookup k (l1 ++ l2) =
      match List.lookup k l1 with
      | some v => some v
      | none => List.lookup k l2 := by
  induction l1 with
  | nil => simp [List.lookup]
  | cons p t ih =>
    obtain ⟨a, b⟩ := p
    by_cases h : k = a
    · subst h
      simp [List.lookup]
    · have hb : (k == a) = false := by simp [h]
      simp [List.lookup, hb, ih]

theorem lookup_setdefaultD {V : Type} (k k1 : String) (v1 : V)
    (data : List (String × V)) :
    List.lookup k (setdefaultD data k1 v1) =
      match List.lookup k data with
      | some v => some v
      | none => if k = k1 then some v1 else none := by
  by_cases h1 : (List.lookup k1 data).isSome = true
  · rw [show setdefaultD data k1 v1 = data from by simp [setdefaultD, h1]]
    cases h : List.lookup k data with
    | some v => simp
    | none =>
      by_cases hk : k = k1
      · subst hk
        rw [h] at h1
        simp at h1
      · simp [hk]
  · rw [show setdefaultD data k1 v1 = data ++ [(k1, v1)] from by simp [setdefaultD, h1]]
    rw [lookup_append_assoc]
    cases h : List.lookup k data with
    | some v => simp
    | none =>
      by_cases hk : k = k1
      · subst hk
        simp [List.lookup]
      · have hb : (k == k1) = false := by simp [hk]
        simp [List.lookup, hb, hk]

theorem lookup_mergeOne {V : Type} (k : String) (m data : List (String × V)) :
    List.lookup k (m.foldl (fun d kv => setdefaultD d kv.1 kv.2) data) =
      match List.lookup k data with
      | some v => some v
      | none => List.lookup k m := by
  induction m generalizing data with
  | nil =>
    cases h : List.lookup k data <;> simp [h, List.lookup]
  | cons kv rest ih =>
    obtain ⟨k1, v1⟩ := kv
    simp only [List.foldl_cons]
    rw [ih, lookup_setdefaultD]
    cases h : List.lookup k data with
    | some v => simp
    | none =>
      by_cases hk : k = k1
      · subst hk
        simp [List.lookup]
      · have hb : (k == k1) = false := by simp [hk]
        simp [List.lookup, hb, hk]

theorem lookup_merge {V : Type} (mro : List (List (String × V))) (k : String) :
    List.lookup k (get_class_attr_dict mro) = getDefault mro k := by
  suffices h : ∀ data, List.lookup k
      (mro.foldl (fun data m => m.foldl (fun d kv => setdefaultD d kv.1 kv.2) data) data) =
      match List.lookup k data with
      | some v => some v
      | none => getDefault mro k by
    have h0 := h []
    simpa [get_class_attr_dict, List.lookup] using h0
  induction mro with
  | nil =>
    intro data
    cases h : List.lookup k data <;> simp [h, getDefault]
  | cons m rest ih =>
    intro data
    simp only [List.foldl_cons]
    rw [ih, lookup_mergeOne]
    cases h : List.lookup k data with
    | some v => simp
    | none =>
      cases h2 : List.lookup k m with
      | some v => simp [getDefault, h2]
      | none => simp [getDefault, h2]

/-- C7: `get_all_defaults` merges every ancestor's own default map so that for
a key declared at several ancestry levels the most-derived level's value wins
(its merged value equals the `_get_default` resolution), while keys declared
only by an ancestor still appear — a three-level ancestry with three distinct
keys yields a mapping containing all three. -/
theorem all_defaults_merge {V : Type} (mro : List (List (String × V))) (key : String) :
    List.lookup key (get_all_defaults mro) = getDefault mro key ∧
    get_all_defaults [[("a", (1 : Nat))], [("b", 2)], [("c", 3)]] =
      [("a", 1), ("b", 2), ("c", 3)] ∧
    List.lookup "x" (get_all_defaults [[("x", (1 : Nat))], [("x", 2), ("y", 5)]]) =
      some 1 ∧
    List.lookup "y" (get_all_defaults [[("x", (1 : Nat))], [("x", 2), ("y", 5)]]) =
      some 5 :=
  ⟨lookup_merge mro key, by decide, by decide, by decide⟩


/-- C9: every write operation routed through `capture_errors` (`insert_one`,
`insert_many`, `update_one`, `update_many`, `replace_one`, `delete_one`,
`delete_many`, `bulk_write`) catches any exception of the underlying action
when capturing is enabled (the default `capture_errors=True`) and returns the
exception's string representation instead of raising; with
`capture_errors=False` the exception propagates unchanged. -/
theorem capture_errors_policy {E A : Type} (toMsg : E → String) (e : E) (v : A)
    (run : Except E A) (flag : Bool) :
    capture_errors toMsg true (Except.error e : Except E A) =
      Except.ok (Sum.inr (toMsg e)) ∧
    capture_errors toMsg true (Except.ok v : Except E A) = Except.ok (Sum.inl v) ∧
    capture_errors toMsg false (Except.error e : Except E A) = Except.error e ∧
    capture_errors toMsg false (Except.ok v : Except E A) = Except.ok (Sum.inl v) ∧
    insert_one toMsg flag run = capture_errors toMsg flag run ∧
    insert_many toMsg flag run = capture_errors toMsg flag run ∧
    update_one toMsg flag run = capture_errors toMsg flag run ∧
    update_many toMsg flag run = capture_errors toMsg flag run ∧
    replace_one toMsg flag run = capture_errors toMsg flag run ∧
    delete_one toMsg flag run = capture_errors toMsg flag run ∧
    delete_many toMsg flag run = capture_errors toMsg flag run ∧
    bulk_write toMsg flag run = capture_errors toMsg flag run :=
  ⟨rfl, rfl, rfl, rfl, rfl, rfl, rfl, rfl, rfl, rfl, rfl, rfl⟩

/-- C10: default resolution never mutates the instance: the state-passing
forms of `__getitem__`, `__getattr__` and `_get_default` leave the instance
unchanged, and a repeated access recomputes the same result (nothing is
cached onto the instance). -/
theorem default_access_pure {V : Type} (inst : Inst V) (key : String) :
    (getItemS inst key).2 = inst ∧
    (getAttrS inst key).2 = inst ∧
    (getDefaultS inst key).2 = inst ∧
    getItemS ((getItemS inst key).2) key = getItemS inst key ∧
    getAttrS ((getAttrS inst key).2) key = getAttrS inst key ∧
    getDefaultS ((getDefaultS inst key).2) key = getDefaultS inst key :=
  ⟨rfl, rfl, rfl, rfl, rfl, rfl⟩

end FlaskMongoRM
